import Mathlib

/-!
Verification development for the discovery engine core.

The definitions below are a shallow embedding of the Go sources:

* `adapterhost.go` — adapter registry (`AddAdapters`, `VisibleAdapters`,
  `AdaptersByType`, `ExpandQuery`, `NewAdapterHost`, `ClearAllAdapters`);
* `source.go` — engine query execution (`Get`, `Find`, `Search`) against a
  list of sources, together with the cache interactions;
* `requests.go` — `ExecuteRequest` and linked-item propagation.

Machine state that the Go code holds in the `Engine` struct (the cache) is
passed explicitly; time is a `Nat` parameter, durations are `Nat` ticks.
The cache itself (`sdpcache`), the `IsWildcard` helper and the three builtin
meta-adapters are not part of the given sources; they are modelled from the
specification and marked as such in their doc comments.
-/

namespace Discovery

/-! ### Data model -/

/-- Error kinds of `sdp.ItemRequestError` (spec section 3: QueryError kinds). -/
inductive ErrorType
  | NOCONTEXT
  | NOTFOUND
  | TIMEOUT
  | OTHER
deriving DecidableEq, Repr, Inhabited

/-- `sdp.ItemRequestError`: a typed error surfaced by sources and the engine. -/
structure ItemRequestError where
  errorType : ErrorType
  errorString : String := ""
  context : String := ""
deriving DecidableEq, Repr, Inhabited

/-- A Go `error` value as the engine sees it: either a typed
`*sdp.ItemRequestError` (recognised by type assertion) or any other error. -/
inductive SourceError
  | sdpErr (e : ItemRequestError)
  | genericErr (msg : String)
deriving DecidableEq, Repr, Inhabited

/-- True exactly when the error is a typed `ItemRequestError` of kind
`NOTFOUND`; this is the test the engine uses both when deciding whether a
cached error short-circuits a source and whether a fresh error is cached. -/
def isNotFoundError : SourceError → Bool
  | .sdpErr ire => ire.errorType == .NOTFOUND
  | .genericErr _ => false

/-- Request methods (`sdp.RequestMethod`). -/
inductive RequestMethod
  | GET
  | FIND
  | SEARCH
deriving DecidableEq, Repr, Inhabited

/-- `sdp.ItemRequest` as used by `source.go` and `requests.go`. -/
structure ItemRequest where
  type : String := ""
  context : String := ""
  query : String := ""
  method : RequestMethod := .GET
  linkDepth : Nat := 0
  itemSubject : String := ""
  responseSubject : String := ""
  ignoreCache : Bool := false
  timeout : Nat := 0
  uuid : List Nat := []
deriving DecidableEq, Repr, Inhabited

/-- `sdp.Metadata` fields the core writes (timestamps and durations are
abstract `Nat` ticks).  `sourceRequest` is set by `ExecuteRequest`. -/
structure Metadata where
  timestamp : Nat := 0
  sourceDuration : Nat := 0
  sourceDurationPerItem : Nat := 0
  sourceName : String := ""
  hidden : Bool := false
  sourceRequest : Option ItemRequest := none
deriving DecidableEq, Repr, Inhabited

/-- `sdp.Item` restricted to the fields the core reads or writes. -/
structure Item where
  type : String := ""
  uniqueAttribute : String := ""
  uniqueAttributeValue : String := ""
  context : String := ""
  metadata : Option Metadata := none
  linkedItemRequests : List ItemRequest := []
deriving DecidableEq, Repr, Inhabited

/-! ### Cache

Modelled from the spec: the cache implementation (`sdpcache`) is not among
the given sources; sections 4.2 and 3 of the specification define it: a
tag-indexed store of items and errors with per-entry TTL; `Search(tags)`
returns every unexpired entry whose stored tags are a superset of the query
tags; a found stored error shadows items; `StoreItem` indexes the item under
the supplied tags together with tags derived from the item itself (its type
and unique attribute value), which is what lets a SEARCH-stored item satisfy
a later GET. -/

/-- A tag set, as an association list with string keys and values. -/
abbrev Tags := List (String × String)

/-- Look a key up in a tag set (first match wins, as in a Go map rendered as
an association list with distinct keys). -/
def tagLookup (tags : Tags) (k : String) : Option String :=
  (tags.find? (fun p => p.1 == k)).map (fun p => p.2)

/-- `query ⊆ stored`: every key/value pair of the query tag set occurs in
the stored tag set. -/
def tagsSubset (query stored : Tags) : Bool :=
  query.all (fun p => tagLookup stored p.1 == some p.2)

/-- A cached value: an item or a stored error. -/
inductive CacheValue
  | item (i : Item)
  | storedError (e : SourceError)
deriving DecidableEq, Repr

/-- One cache entry: the full stored tag set, the value, and its absolute
expiry instant. -/
structure CacheEntry where
  tags : Tags
  value : CacheValue
  expiry : Nat
deriving DecidableEq, Repr

abbrev Cache := List CacheEntry

/-- Modelled from the spec: tags derived from the item itself when storing. -/
def itemTags (i : Item) : Tags :=
  [("type", i.type), ("uniqueAttributeValue", i.uniqueAttributeValue)]

/-- Modelled from the spec: `cache.StoreItem(item, ttl, tags)`. -/
def storeItem (c : Cache) (i : Item) (expiry : Nat) (tags : Tags) : Cache :=
  c ++ [{ tags := itemTags i ++ tags, value := .item i, expiry := expiry }]

/-- Modelled from the spec: `cache.StoreError(err, ttl, tags)`. -/
def storeError (c : Cache) (e : SourceError) (expiry : Nat) (tags : Tags) : Cache :=
  c ++ [{ tags := tags, value := .storedError e, expiry := expiry }]

/-- Result of `cache.Search(tags)`: a `CacheNotFoundError`, a stored error,
or the matching items. -/
inductive CacheResult
  | miss
  | err (e : SourceError)
  | hit (items : List Item)
deriving DecidableEq, Repr

/-- Modelled from the spec: `cache.Search(tags)` returns every unexpired
entry whose stored tags are a superset of the query tags; stored errors
shadow items; no match at all is a `CacheNotFoundError` (`miss`). -/
def cacheSearch (now : Nat) (c : Cache) (q : Tags) : CacheResult :=
  let ms := c.filter (fun en => decide (now < en.expiry) && tagsSubset q en.tags)
  let errs := ms.filterMap (fun en =>
    match en.value with
    | .storedError e => some e
    | .item _ => none)
  match errs with
  | e :: _ => CacheResult.err e
  | [] =>
    let items := ms.filterMap (fun en =>
      match en.value with
      | .item i => some i
      | .storedError _ => none)
    if items.isEmpty then CacheResult.miss else CacheResult.hit items

/-- Modelled from the spec: `cache.Delete(tags)` drops every entry matching
the tag query. -/
def cacheDelete (c : Cache) (q : Tags) : Cache :=
  c.filter (fun en => !(tagsSubset q en.tags))

/-! ### Adapter registry (`adapterhost.go`) -/

/-- An adapter as the registry sees it: its type, name, declared scopes and
whether the (optional) `Hidden()` capability reports true.  An adapter
without the capability behaves exactly like `hidden := false`. -/
structure Adapter where
  type : String
  name : String := ""
  scopes : List String
  hidden : Bool := false
deriving DecidableEq, Repr

/-- Modelled from the spec: `IsWildcard` is defined outside the given
sources; the spec fixes the wildcard value to the string `*`. -/
def IsWildcard (s : String) : Bool := s == "*"

/-- First scope of `a` that also occurs in `existing`, when the two share a
type — the collision witness `AddAdapters` reports (inner loops of
`adapterhost.go` lines 53-63). -/
def collidingScope (a existing : Adapter) : Option String :=
  if existing.type == a.type then
    a.scopes.find? (fun s => existing.scopes.contains s)
  else none

/-- First registered adapter colliding with `a`, with the offending scope
(outer loop of `AddAdapters`). -/
def firstCollision (registry : List Adapter) (a : Adapter) : Option String :=
  registry.findSome? (fun existing => collidingScope a existing)

/-- `AddAdapters`: each new adapter is checked against the current registry
(which grows as the loop proceeds); on the first collision the function
returns the error immediately, keeping the adapters appended so far. -/
def addAdapters (registry : List Adapter) : List Adapter → List Adapter × Option String
  | [] => (registry, none)
  | a :: rest =>
    match firstCollision registry a with
    | some s => (registry, some ("adapter " ++ a.type ++ " already exists with scope " ++ s))
    | none => addAdapters (registry ++ [a]) rest

/-- Modelled from the spec: the builtin `type` meta-adapter registered at
host construction (`overmind-type`); its implementation is not among the
given sources. -/
def typeAdapter : Adapter :=
  { type := "overmind-type", name := "overmind-type-metasource", scopes := ["global"] }

/-- Modelled from the spec: the builtin `scope` meta-adapter
(`overmind-scope`). -/
def scopeAdapter : Adapter :=
  { type := "overmind-scope", name := "overmind-scope-metasource", scopes := ["global"] }

/-- Modelled from the spec: the builtin `adapter` meta-adapter
(`overmind-adapter`). -/
def sourcesAdapter : Adapter :=
  { type := "overmind-adapter", name := "overmind-adapter-metasource", scopes := ["global"] }

/-- `addBuiltinAdapters`: three separate `AddAdapters` calls whose errors
are discarded. -/
def addBuiltinAdapters (registry : List Adapter) : List Adapter :=
  let r1 := (addAdapters registry [typeAdapter]).1
  let r2 := (addAdapters r1 [scopeAdapter]).1
  (addAdapters r2 [sourcesAdapter]).1

/-- `NewAdapterHost`: an empty registry populated with the builtins. -/
def newAdapterHost : List Adapter := addBuiltinAdapters []

/-- `ClearAllAdapters`: the registry is reset to empty and the builtins are
re-added. -/
def clearAllAdapters (_registry : List Adapter) : List Adapter :=
  addBuiltinAdapters []

/-- `VisibleAdapters`: all adapters except hidden ones. -/
def visibleAdapters (registry : List Adapter) : List Adapter :=
  registry.filter (fun a => !a.hidden)

/-- `AdaptersByType`: adapters of the given type, hidden ones included. -/
def adaptersByType (registry : List Adapter) (typ : String) : List Adapter :=
  registry.filter (fun a => a.type == typ)

/-- Character-list version of substring occurrence: `sub` occurs in `l`. -/
def charsContain (sub : List Char) : List Char → Bool
  | [] => sub.isEmpty
  | c :: rest => sub.isPrefixOf (c :: rest) || charsContain sub rest

/-- Go `strings.Contains s sub`: `sub` occurs in `s` as a substring. -/
def strContains (s sub : String) : Bool :=
  charsContain sub.data s.data

/-- `sdp.Query` as used by `ExpandQuery` (`adapterhost.go`). -/
structure Query where
  type : String := ""
  scope : String := ""
  method : RequestMethod := .GET
  query : String := ""
  linkDepth : Nat := 0
  ignoreCache : Bool := false
deriving DecidableEq, Repr, Inhabited

/-- The emission condition of `ExpandQuery` (`adapterhost.go` line 161): the
adapter scope is the wildcard, or the query scope is the wildcard and the
adapter is not hidden, or the query scope occurs in the adapter scope as a
substring. -/
def expandCondition (q : Query) (a : Adapter) (s : String) : Bool :=
  IsWildcard s || (IsWildcard q.scope && !a.hidden) || strContains s q.scope

/-- The sub-query `ExpandQuery` emits for adapter `a` and adapter scope `s`:
a copy of `q` with the adapter's type and the more specific of the two
scopes. -/
def expandDest (q : Query) (a : Adapter) (s : String) : Query :=
  { q with type := a.type, scope := if IsWildcard s then q.scope else s }

/-- `ExpandQuery`: candidate adapters are all visible adapters for a
wildcard-type query, else the adapters of the query's type; one sub-query is
emitted per adapter scope passing `expandCondition`. -/
def expandQuery (registry : List Adapter) (q : Query) : List (Query × Adapter) :=
  let checkAdapters :=
    if IsWildcard q.type then visibleAdapters registry
    else adaptersByType registry q.type
  checkAdapters.flatMap (fun a =>
    (a.scopes.filter (expandCondition q a)).map (fun s => (expandDest q a s, a)))

/-! ### Sources and the engine query pipeline (`source.go`) -/

/-- A `Source` (`source.go`): required identity data plus the `Get`/`Find`
behaviours as pure functions of the item context and query, mirroring Go's
`(*sdp.Item, error)` and `([]*sdp.Item, error)` return shapes.  The optional
capabilities `Search` (`SearchableSource`), `Hidden` (`HiddenSource`) and
`DefaultCacheDuration` (`CacheDefiner`) are `Option`-valued. -/
structure Source where
  name : String
  type : String
  contexts : List String := []
  weight : Int := 0
  hidden : Option Bool := none
  defaultCacheDuration : Option Nat := none
  get : String → String → Option Item × Option SourceError
  find : String → List Item × Option SourceError
  search : Option (String → String → List Item × Option SourceError) := none

/-- `GetCacheDuration`: the source's `DefaultCacheDuration` when the
capability is present, else 10 minutes (600 ticks). -/
def getCacheDuration (s : Source) : Nat :=
  s.defaultCacheDuration.getD 600

/-- The tag set `Engine.Get` uses for one source (`source.go` lines
116-121). -/
def getTags (r : ItemRequest) (src : Source) : Tags :=
  [("sourceName", src.name), ("uniqueAttributeValue", r.query),
   ("type", r.type), ("context", r.context)]

/-- The tag set `Engine.Find` uses for one source (`source.go` lines
249-253). -/
def findTags (r : ItemRequest) (src : Source) : Tags :=
  [("method", "find"), ("sourceName", src.name), ("context", r.context)]

/-- The tag set `Engine.Search` uses for one source (`source.go` lines
393-398); note that it reuses the method tag value `find`. -/
def searchTags (r : ItemRequest) (src : Source) : Tags :=
  [("method", "find"), ("sourceName", src.name), ("query", r.query),
   ("context", r.context)]

/-- The metadata the engine writes on items returned by a source call
(timestamp, source name, hidden flag of a `HiddenSource`; durations are not
tracked by the model and stay 0). -/
def setMetadata (now : Nat) (src : Source) (i : Item) : Item :=
  { i with metadata := some { timestamp := now, sourceName := src.name,
                              hidden := src.hidden.getD false } }

/-- What `Engine.Get` decides from the cache for one source before calling
it (`source.go` lines 131-161): skip the source on a cached `NOTFOUND`,
return a single cached item, otherwise call the source — after purging the
tag set when the cache returned a weird number of items. -/
inductive GetCacheDecision
  | skipSource
  | returnItem (i : Item)
  | callSource (cache : Cache)
deriving Repr

/-- Cache consultation of `Engine.Get` for one source.  With `IgnoreCache`
the cache is bypassed.  A stored typed `NOTFOUND` skips the source; any
other stored error (a typed non-`NOTFOUND` falls out of the Go type switch,
a non-typed error matches no case) falls through to the source call; a hit
with exactly one item is returned as-is; a hit with any other number of
items deletes the tag set and calls the source. -/
def getCacheDecision (now : Nat) (r : ItemRequest) (src : Source) (cache : Cache) :
    GetCacheDecision :=
  if r.ignoreCache then .callSource cache
  else
    match cacheSearch now cache (getTags r src) with
    | .miss => .callSource cache
    | .err e => if isNotFoundError e then .skipSource else .callSource cache
    | .hit items =>
      if items.length == 1 then .returnItem items.head!
      else .callSource (cacheDelete cache (getTags r src))

/-- Outcome of `Engine.Get`: the cache afterwards, the returned item (Go
returns `&sdp.Item{}` alongside an error), the returned error, and the names
of the sources whose `Get` was actually invoked, in order. -/
structure GetOutcome where
  cache : Cache
  item : Item
  error : Option SourceError
  calls : List String
deriving DecidableEq, Repr

/-- The source loop of `Engine.Get` (`source.go` lines 115-224).  `errAcc`
is the `err` variable living across loop iterations; a source skipped via a
cached `NOTFOUND` leaves it untouched.  A typed `NOTFOUND` error from the
source is cached; the first successful source returns — unless its item
pointer is nil, which becomes an `OTHER` error without caching or
metadata. -/
def engineGetLoop (now : Nat) (r : ItemRequest) :
    List Source → Cache → Option SourceError → GetOutcome
  | [], cache, errAcc => { cache := cache, item := {}, error := errAcc, calls := [] }
  | src :: rest, cache, errAcc =>
    match getCacheDecision now r src cache with
    | .skipSource => engineGetLoop now r rest cache errAcc
    | .returnItem i => { cache := cache, item := i, error := none, calls := [] }
    | .callSource cache =>
      let res := src.get r.context r.query
      let cache1 :=
        match res.2 with
        | some e =>
          if isNotFoundError e then
            storeError cache e (now + getCacheDuration src) (getTags r src)
          else cache
        | none => cache
      match res.2 with
      | none =>
        match res.1 with
        | none =>
          { cache := cache1, item := {},
            error := some (SourceError.sdpErr
              { errorType := .OTHER,
                errorString := "Backend returned a nil pointer as an item" }),
            calls := [src.name] }
        | some it =>
          let it := setMetadata now src it
          { cache := storeItem cache1 it (now + getCacheDuration src) (getTags r src),
            item := it, error := none, calls := [src.name] }
      | some e =>
        let o := engineGetLoop now r rest cache1 (some e)
        { o with calls := src.name :: o.calls }

/-- `Engine.Get` (`source.go` lines 102-228): `NOCONTEXT` when no relevant
source exists, else the source loop. -/
def engineGet (now : Nat) (r : ItemRequest) (sources : List Source) (cache : Cache) :
    GetOutcome :=
  if sources.isEmpty then
    { cache := cache, item := {},
      error := some (SourceError.sdpErr
        { errorType := .NOCONTEXT,
          errorString := "no sources found for type " ++ r.type ++ " and context " ++ r.context,
          context := r.context }),
      calls := [] }
  else engineGetLoop now r sources cache none

/-- What `Engine.Find`/`Engine.Search` decide from the cache for one source:
skip it on a cached `NOTFOUND`, use cached items on a hit, otherwise call
the source. -/
inductive ListCacheDecision
  | skipSource
  | useCached (items : List Item)
  | callSource
deriving Repr

/-- Cache consultation of `Engine.Find`/`Engine.Search` for one source
(`source.go` lines 261-287 and 406-432).  A stored typed `NOTFOUND` skips
the source; any other stored error falls through to the source call (the Go
`default` branch sees no cached items alongside such an error); cached items
are used directly. -/
def listCacheDecision (now : Nat) (tags : Tags) (cache : Cache) (ignoreCache : Bool) :
    ListCacheDecision :=
  if ignoreCache then .callSource
  else
    match cacheSearch now cache tags with
    | .miss => .callSource
    | .err e => if isNotFoundError e then .skipSource else .callSource
    | .hit items => if items.isEmpty then .callSource else .useCached items

/-- Outcome of the `Engine.Find`/`Engine.Search` source loop: the cache
afterwards, the gathered items, the per-source `errors` slice (a `none`
entry is a success), and the names of the sources actually called. -/
structure ListLoopOutcome where
  cache : Cache
  items : List Item
  errors : List (Option SourceError)
  calls : List String
deriving DecidableEq, Repr

/-- The source loop of `Engine.Find` (`source.go` lines 248-349).  A source
returning no error and no items gets a `NOTFOUND` error cached under its
tags; a source returning an error gets that error cached as-is; returned
items receive metadata and are cached one by one; items and the error are
appended to the running slices. -/
def engineFindLoop (now : Nat) (r : ItemRequest) :
    List Source → Cache → ListLoopOutcome
  | [], cache => { cache := cache, items := [], errors := [], calls := [] }
  | src :: rest, cache =>
    let tags := findTags r src
    match listCacheDecision now tags cache r.ignoreCache with
    | .skipSource => engineFindLoop now r rest cache
    | .useCached cachedItems =>
      let o := engineFindLoop now r rest cache
      { o with items := cachedItems ++ o.items, errors := none :: o.errors }
    | .callSource =>
      let res := src.find r.context
      let cache1 :=
        match res.2 with
        | none =>
          if res.1.isEmpty then
            storeError cache (SourceError.sdpErr { errorType := .NOTFOUND })
              (now + getCacheDuration src) tags
          else cache
        | some e => storeError cache e (now + getCacheDuration src) tags
      let finds := res.1.map (setMetadata now src)
      let cache2 := finds.foldl
        (fun c it => storeItem c it (now + getCacheDuration src) tags) cache1
      let o := engineFindLoop now r rest cache2
      { o with items := finds ++ o.items, errors := res.2 :: o.errors,
               calls := src.name :: o.calls }

/-- The final error of `Engine.Find`/`Engine.Search` (`source.go` lines
351-362): `nil` as soon as any source succeeded, else the first collected
error, else `nil` when nothing was collected. -/
def finalError (errors : List (Option SourceError)) : Option SourceError :=
  if errors.contains none then none
  else
    match errors with
    | [] => none
    | e :: _ => e

/-- Outcome of `Engine.Find`/`Engine.Search` as callers see it. -/
structure ListOutcome where
  cache : Cache
  items : List Item
  error : Option SourceError
  calls : List String
deriving DecidableEq, Repr

/-- `Engine.Find` (`source.go` lines 233-363). -/
def engineFind (now : Nat) (r : ItemRequest) (sources : List Source) (cache : Cache) :
    ListOutcome :=
  if sources.isEmpty then
    { cache := cache, items := [],
      error := some (SourceError.sdpErr
        { errorType := .NOCONTEXT,
          errorString := "no sources found for type " ++ r.type ++ " and context " ++ r.context,
          context := r.context }),
      calls := [] }
  else
    let o := engineFindLoop now r sources cache
    { cache := o.cache, items := o.items, error := finalError o.errors, calls := o.calls }

/-- The `Search` behaviour of a source, defaulting to an empty result for a
source without the capability (the engine only ever invokes it on searchable
sources). -/
def searchFn (src : Source) : String → String → List Item × Option SourceError :=
  match src.search with
  | some f => f
  | none => fun _ _ => ([], none)

/-- The source loop of `Engine.Search` (`source.go` lines 392-494); it
mirrors the `Find` loop but calls `Search` and tags with the query. -/
def engineSearchLoop (now : Nat) (r : ItemRequest) :
    List Source → Cache → ListLoopOutcome
  | [], cache => { cache := cache, items := [], errors := [], calls := [] }
  | src :: rest, cache =>
    let tags := searchTags r src
    match listCacheDecision now tags cache r.ignoreCache with
    | .skipSource => engineSearchLoop now r rest cache
    | .useCached cachedItems =>
      let o := engineSearchLoop now r rest cache
      { o with items := cachedItems ++ o.items, errors := none :: o.errors }
    | .callSource =>
      let res := searchFn src r.context r.query
      let cache1 :=
        match res.2 with
        | none =>
          if res.1.isEmpty then
            storeError cache (SourceError.sdpErr { errorType := .NOTFOUND })
              (now + getCacheDuration src) tags
          else cache
        | some e => storeError cache e (now + getCacheDuration src) tags
      let finds := res.1.map (setMetadata now src)
      let cache2 := finds.foldl
        (fun c it => storeItem c it (now + getCacheDuration src) tags) cache1
      let o := engineSearchLoop now r rest cache2
      { o with items := finds ++ o.items, errors := res.2 :: o.errors,
               calls := src.name :: o.calls }

/-- `Engine.Search` (`source.go` lines 368-508): the relevant sources are
first filtered to those with the `Search` capability; `NOCONTEXT` when none
remains. -/
def engineSearch (now : Nat) (r : ItemRequest) (sources : List Source) (cache : Cache) :
    ListOutcome :=
  let searchable := sources.filter (fun s => s.search.isSome)
  if searchable.isEmpty then
    { cache := cache, items := [],
      error := some (SourceError.sdpErr
        { errorType := .NOCONTEXT,
          errorString := "no sources found for type " ++ r.type ++ " and context "
            ++ r.context ++ " that support searching",
          context := r.context }),
      calls := [] }
  else
    let o := engineSearchLoop now r searchable cache
    { cache := o.cache, items := o.items, error := finalError o.errors, calls := o.calls }

/-! ### Request execution and linking (`requests.go`) -/

/-- `sdp.NewItemRequestError`: a typed error passes through, anything else
becomes `OTHER`. -/
def toItemRequestError : SourceError → ItemRequestError
  | .sdpErr e => e
  | .genericErr msg => { errorType := .OTHER, errorString := msg }

/-- The per-linked-item-request mutation of `ExecuteRequest` (`requests.go`
lines 140-147): decrement the link depth and propagate the subjects, cache
flag, timeout and UUID of the parent request. -/
def propagateLink (req : ItemRequest) (lir : ItemRequest) : ItemRequest :=
  { lir with linkDepth := req.linkDepth - 1, itemSubject := req.itemSubject,
             responseSubject := req.responseSubject, ignoreCache := req.ignoreCache,
             timeout := req.timeout, uuid := req.uuid }

/-- The per-item post-processing of `ExecuteRequest` (`requests.go` lines
133-154): linked item requests are rewritten only when the request still has
link depth left; the source request is recorded in non-nil metadata. -/
def linkItem (req : ItemRequest) (i : Item) : Item :=
  let i :=
    if req.linkDepth > 0 then
      { i with linkedItemRequests := i.linkedItemRequests.map (propagateLink req) }
    else i
  { i with metadata := i.metadata.map (fun m => { m with sourceRequest := some req }) }

/-- The method dispatch of `ExecuteRequest` (`requests.go` lines 118-126),
before linking: the raw items and error of the underlying engine call, and
the cache afterwards. -/
def executeRequestRaw (now : Nat) (req : ItemRequest) (sources : List Source)
    (cache : Cache) : Cache × List Item × Option SourceError :=
  match req.method with
  | .GET =>
    let o := engineGet now req sources cache
    (o.cache, [o.item], o.error)
  | .FIND =>
    let o := engineFind now req sources cache
    (o.cache, o.items, o.error)
  | .SEARCH =>
    let o := engineSearch now req sources cache
    (o.cache, o.items, o.error)

/-- `ExecuteRequest` (`requests.go` lines 105-157): on an error the request
fails with a typed error and no items; otherwise every returned item gets
the linking treatment. -/
def executeRequest (now : Nat) (req : ItemRequest) (sources : List Source)
    (cache : Cache) : Cache × Except ItemRequestError (List Item) :=
  let raw := executeRequestRaw now req sources cache
  match raw.2.2 with
  | some e => (raw.1, .error (toItemRequestError e))
  | none => (raw.1, .ok (raw.2.1.map (linkItem req)))

/-! ### Registry lemmas -/

lemma collidingScope_isSome_iff (a existing : Adapter) :
    (collidingScope a existing).isSome = true ↔
      existing.type = a.type ∧ ∃ s ∈ a.scopes, s ∈ existing.scopes := by
  unfold collidingScope
  by_cases h : existing.type = a.type
  · simp only [h, beq_self_eq_true, if_true, true_and]
    rw [List.find?_isSome]
    constructor
    · rintro ⟨s, hs, hc⟩
      exact ⟨s, hs, by simpa using hc⟩
    · rintro ⟨s, hs, hc⟩
      exact ⟨s, hs, by simpa using hc⟩
  · simp [h, beq_iff_eq]

lemma firstCollision_isSome_iff (registry : List Adapter) (a : Adapter) :
    (firstCollision registry a).isSome = true ↔
      ∃ ex ∈ registry, ex.type = a.type ∧ ∃ s ∈ a.scopes, s ∈ ex.scopes := by
  unfold firstCollision
  induction registry with
  | nil => simp
  | cons ex rest ih =>
    rw [List.findSome?_cons]
    cases hc : collidingScope a ex with
    | some s =>
      have : (collidingScope a ex).isSome = true := by simp [hc]
      rw [collidingScope_isSome_iff] at this
      simp [this]
    | none =>
      have : ¬ (collidingScope a ex).isSome = true := by simp [hc]
      rw [collidingScope_isSome_iff] at this
      simp [ih, this]

/-- Adapters used by the C3 counterexample: a registered concrete-scope
adapter and a same-type wildcard-scope adapter. -/
def concretePersonAdapter : Adapter := { type := "person", scopes := ["test"] }

/-- Same-type adapter declaring only the wildcard scope. -/
def wildcardPersonAdapter : Adapter := { type := "person", scopes := ["*"] }

/-- C3 counterexample: adding a same-type adapter whose scopes are `{*}`
next to one with the concrete scope `test` is NOT rejected — `AddAdapters`
compares scope strings for literal equality only, so the call succeeds and
the registry gains the wildcard adapter, contradicting the claimed
wildcard/concrete collision rule. -/
theorem addAdapters_wildcard_not_rejected :
    addAdapters [concretePersonAdapter] [wildcardPersonAdapter]
      = ([concretePersonAdapter, wildcardPersonAdapter], none) := by
  decide

/-- C3 (amended): `AddAdapters` for a single adapter returns an error
exactly when the new adapter shares its Type with an already-registered
adapter and some scope string is literally shared (the wildcard `*` collides
only with a literal `*`); on error the registry is unchanged, on success the
adapter is appended. -/
theorem addAdapters_single_characterisation (registry : List Adapter) (a : Adapter) :
    ((addAdapters registry [a]).2 ≠ none ↔
        ∃ ex ∈ registry, ex.type = a.type ∧ ∃ s ∈ a.scopes, s ∈ ex.scopes)
    ∧ ((addAdapters registry [a]).2 ≠ none → (addAdapters registry [a]).1 = registry)
    ∧ ((addAdapters registry [a]).2 = none →
        (addAdapters registry [a]).1 = registry ++ [a]) := by
  have hiff := firstCollision_isSome_iff registry a
  cases hfc : firstCollision registry a with
  | some s =>
    have : (∃ ex ∈ registry, ex.type = a.type ∧ ∃ s ∈ a.scopes, s ∈ ex.scopes) := by
      rw [← hiff]; simp [hfc]
    refine ⟨?_, ?_, ?_⟩ <;> simp [addAdapters, hfc, this]
  | none =>
    have : ¬ (∃ ex ∈ registry, ex.type = a.type ∧ ∃ s ∈ a.scopes, s ∈ ex.scopes) := by
      rw [← hiff]; simp [hfc]
    refine ⟨?_, ?_, ?_⟩ <;> simp [addAdapters, hfc, this]

/-- Witness for the amended C3: a colliding concrete add errors and leaves
the registry as it was. -/
theorem addAdapters_single_characterisation_witness :
    (addAdapters [concretePersonAdapter] [concretePersonAdapter]).2 ≠ none
    ∧ (addAdapters [concretePersonAdapter] [concretePersonAdapter]).1
        = [concretePersonAdapter] :=
  ⟨by decide,
   (addAdapters_single_characterisation [concretePersonAdapter]
      concretePersonAdapter).2.1 (by decide)⟩

/-- C10: immediately after `NewAdapterHost()` and immediately after every
`ClearAllAdapters()` call the registry contains exactly the three builtin
meta-adapters. -/
theorem builtins_present_after_new_and_clear :
    newAdapterHost = [typeAdapter, scopeAdapter, sourcesAdapter]
    ∧ ∀ registry : List Adapter,
        clearAllAdapters registry = [typeAdapter, scopeAdapter, sourcesAdapter] := by
  refine ⟨by decide, fun registry => ?_⟩
  unfold clearAllAdapters
  decide

/-! ### Expansion lemmas -/

/-- The hidden adapter of the C4 counterexample: hidden, but declaring the
wildcard scope. -/
def hiddenStarAdapter : Adapter :=
  { type := "dog", name := "hidden-star", scopes := ["*"], hidden := true }

/-- A wildcard-scope query for the C4 counterexample's concrete type. -/
def wildcardScopeQuery : Query :=
  { type := "dog", scope := "*", method := .GET, query := "x" }

/-- C4 counterexample: for a query with concrete type and wildcard scope,
`ExpandQuery` DOES map a sub-query to a hidden adapter when that adapter
declares the wildcard scope `*` — the wildcard-adapter-scope disjunct of the
emission condition fires before the hidden check. -/
theorem expandQuery_hidden_wildcard_emitted :
    expandQuery [hiddenStarAdapter] wildcardScopeQuery
      = [(wildcardScopeQuery, hiddenStarAdapter)]
    ∧ hiddenStarAdapter.hidden = true := by
  constructor
  · rfl
  · rfl

/-- C4 (amended): a query with wildcard type never expands to a hidden
adapter; a query with wildcard scope can map a sub-query to a hidden adapter
only through an adapter scope containing `*` (in particular the wildcard
scope itself) — a hidden adapter whose scopes are all `*`-free never appears
in a wildcard expansion. -/
theorem expandQuery_hidden_amended (registry : List Adapter) (q : Query) :
    (IsWildcard q.type = true → ∀ p ∈ expandQuery registry q, p.2.hidden = false)
    ∧ (IsWildcard q.scope = true → ∀ p ∈ expandQuery registry q, p.2.hidden = true →
        ∃ s ∈ p.2.scopes, strContains s "*" = true) := by
  constructor
  · intro ht p hp
    unfold expandQuery at hp
    rw [if_pos ht] at hp
    rw [List.mem_flatMap] at hp
    obtain ⟨a, ha, hpa⟩ := hp
    rw [List.mem_map] at hpa
    obtain ⟨s, _, rfl⟩ := hpa
    have := (List.mem_filter.mp ha).2
    simpa using this
  · intro hsc p hp hhid
    unfold expandQuery at hp
    have hq : q.scope = "*" := by
      have := hsc
      unfold IsWildcard at this
      exact beq_iff_eq.mp this
    rw [List.mem_flatMap] at hp
    obtain ⟨a, _, hpa⟩ := hp
    rw [List.mem_map] at hpa
    obtain ⟨s, hsmem, rfl⟩ := hpa
    have hcond := (List.mem_filter.mp hsmem).2
    have hsmem' := (List.mem_filter.mp hsmem).1
    unfold expandCondition at hcond
    simp only [Bool.or_eq_true, Bool.and_eq_true] at hcond
    rcases hcond with (hw | ⟨_, hnh⟩) | hc
    · refine ⟨s, hsmem', ?_⟩
      have : s = "*" := beq_iff_eq.mp hw
      rw [this]
      decide
    · have hhid' : a.hidden = true := hhid
      rw [hhid'] at hnh
      simp at hnh
    · exact ⟨s, hsmem', by rwa [hq] at hc⟩

/-- Witness for the amended C4: with a hidden adapter registered, a
wildcard-type query expands to no hidden adapter. -/
theorem expandQuery_hidden_amended_witness :
    IsWildcard (Query.mk "*" "test" .GET "" 0 false).type = true
    ∧ ∀ p ∈ expandQuery [hiddenStarAdapter] (Query.mk "*" "test" .GET "" 0 false),
        p.2.hidden = false :=
  ⟨by decide,
   (expandQuery_hidden_amended [hiddenStarAdapter]
      (Query.mk "*" "test" .GET "" 0 false)).1 (by decide)⟩

/-- Declarative form of claim C5, stated from the claim's words: for a
query with concrete type, one sub-query per registered adapter of that type
and per adapter scope `s` with `s == *`, or `q.scope == *` and the adapter
not hidden, or `s` containing `q.scope` as a substring; the emitted
sub-query carries the adapter's type and the more specific scope. -/
def expandQueryPerTypeAdapter (registry : List Adapter) (q : Query) :
    List (Query × Adapter) :=
  (registry.filter (fun a => a.type == q.type)).flatMap (fun a =>
    a.scopes.filterMap (fun s =>
      if IsWildcard s || (IsWildcard q.scope && !a.hidden) || strContains s q.scope then
        some ({ q with type := a.type, scope := if IsWildcard s then q.scope else s }, a)
      else none))

lemma filter_map_eq_filterMap {α β : Type} (p : α → Bool) (f : α → β) (l : List α) :
    (l.filter p).map f = l.filterMap (fun x => if p x then some (f x) else none) := by
  induction l with
  | nil => rfl
  | cons x xs ih =>
    by_cases hx : p x = true <;> simp [hx, ih]

/-- C5: for every concrete-type query, `ExpandQuery` coincides with the
declarative per-adapter, per-scope emission of the claim. -/
theorem expandQuery_concrete_type_refines (registry : List Adapter) (q : Query)
    (h : IsWildcard q.type = false) :
    expandQuery registry q = expandQueryPerTypeAdapter registry q := by
  unfold expandQuery expandQueryPerTypeAdapter adaptersByType
  rw [if_neg (by simp [h])]
  refine List.flatMap_congr ?_
  intro a _
  rw [filter_map_eq_filterMap]
  refine List.filterMap_congr ?_
  intro s _
  unfold expandCondition expandDest
  rfl

/-- Witness for C5 at a concrete registry and query. -/
theorem expandQuery_concrete_type_refines_witness :
    IsWildcard (Query.mk "person" "test" .GET "q" 0 false).type = false
    ∧ expandQuery [concretePersonAdapter, hiddenStarAdapter]
          (Query.mk "person" "test" .GET "q" 0 false)
        = expandQueryPerTypeAdapter [concretePersonAdapter, hiddenStarAdapter]
          (Query.mk "person" "test" .GET "q" 0 false) :=
  ⟨by decide,
   expandQuery_concrete_type_refines [concretePersonAdapter, hiddenStarAdapter]
      (Query.mk "person" "test" .GET "q" 0 false) (by decide)⟩

/-! ### Tag lemmas -/

lemma tagLookup_cons (k' v : String) (rest : Tags) (k : String) :
    tagLookup ((k', v) :: rest) k = if (k' == k) then some v else tagLookup rest k := by
  by_cases h : (k' == k) = true <;> simp [tagLookup, List.find?, h]

lemma tagsSubset_findTags_self (r : ItemRequest) (src : Source) :
    tagsSubset (findTags r src) (findTags r src) = true := by
  simp [tagsSubset, findTags, tagLookup_cons]

lemma tagsSubset_searchTags_self (r : ItemRequest) (src : Source) :
    tagsSubset (searchTags r src) (searchTags r src) = true := by
  simp [tagsSubset, searchTags, tagLookup_cons]

lemma tagsSubset_get_search (rs rg : ItemRequest) (src : Source) (i : Item)
    (huav : i.uniqueAttributeValue = rg.query)
    (htype : rg.type = i.type)
    (hctx : rg.context = rs.context) :
    tagsSubset (getTags rg src) (itemTags i ++ searchTags rs src) = true := by
  simp [tagsSubset, getTags, itemTags, searchTags, tagLookup_cons, huav, htype, hctx]

/-! ### Shared concrete fixtures for witnesses and counterexamples -/

/-- An item with one linked item request, used by concrete scenarios. -/
def wItem : Item :=
  { type := "person", uniqueAttributeValue := "Dylan", context := "test",
    linkedItemRequests :=
      [{ type := "dog", context := "test", query := "fido", method := .GET,
         linkDepth := 99, itemSubject := "old-items",
         responseSubject := "old-responses" }] }

/-- A well-behaved source returning `wItem` on every method. -/
def wSource : Source :=
  { name := "w-source", type := "person", contexts := ["test"],
    get := fun _ _ => (some wItem, none),
    find := fun _ => ([wItem], none),
    search := some fun _ _ => ([wItem], none) }

/-- An `OTHER` error as a source produces it. -/
def otherError : SourceError :=
  .sdpErr { errorType := .OTHER, errorString := "unexpected failure" }

/-- A source failing every method with an `OTHER` error. -/
def failingSource : Source :=
  { name := "fail-source", type := "person", contexts := ["error"],
    get := fun _ _ => (none, some otherError),
    find := fun _ => ([], some otherError),
    search := some fun _ _ => ([], some otherError) }

/-- A source that conclusively finds nothing: `Get` raises a typed
`NOTFOUND`, `Find` and `Search` succeed with zero items. -/
def emptySource : Source :=
  { name := "empty-source", type := "person", contexts := ["empty"],
    get := fun _ _ => (none, some (.sdpErr { errorType := .NOTFOUND, errorString := "no items found" })),
    find := fun _ => ([], none),
    search := some fun _ _ => ([], none) }

/-- A misbehaving source whose `Get` returns a nil item with a nil error. -/
def nilSource : Source :=
  { name := "nil-source", type := "person", contexts := ["test"],
    get := fun _ _ => (none, none),
    find := fun _ => ([], none) }

/-- A GET request for `wItem` in scope `test`. -/
def wGetRequest : ItemRequest :=
  { type := "person", context := "test", query := "Dylan", method := .GET,
    linkDepth := 3, itemSubject := "items", responseSubject := "responses",
    timeout := 5, uuid := [1, 2, 3] }

/-! ### C9: nil item from a source -/

/-- C9: when a source's `Get` returns a nil item pointer with a nil error,
`Engine.Get` returns an `OTHER` error with the message `Backend returned a
nil pointer as an item`; the nil item is not cached (the cache is unchanged)
and no metadata is produced (the returned item is the blank `&sdp.Item{}`). -/
theorem engineGet_nil_item_other_error (now : Nat) (r : ItemRequest) (src : Source)
    (rest : List Source) (cache : Cache)
    (hic : r.ignoreCache = true)
    (hg : src.get r.context r.query = (none, none)) :
    engineGet now r (src :: rest) cache =
      { cache := cache, item := {},
        error := some (SourceError.sdpErr
          { errorType := .OTHER,
            errorString := "Backend returned a nil pointer as an item" }),
        calls := [src.name] } := by
  simp [engineGet, engineGetLoop, getCacheDecision, hic, hg]

/-- A cache-bypassing GET request aimed at `nilSource`. -/
def nilGetRequest : ItemRequest :=
  { type := "person", context := "test", query := "x", method := .GET,
    ignoreCache := true }

/-- Witness for C9 at the concrete `nilSource`. -/
theorem engineGet_nil_item_other_error_witness :
    nilGetRequest.ignoreCache = true
    ∧ nilSource.get "test" "x" = (none, none)
    ∧ engineGet 0 nilGetRequest [nilSource] [] =
      { cache := [], item := {},
        error := some (SourceError.sdpErr
          { errorType := .OTHER,
            errorString := "Backend returned a nil pointer as an item" }),
        calls := ["nil-source"] } :=
  ⟨rfl, rfl,
   engineGet_nil_item_other_error 0 nilGetRequest nilSource [] [] rfl rfl⟩

/-! ### C8: link depth propagation -/

/-- C8: for every item returned by `ExecuteRequest`, when the request's
`LinkDepth` is positive each linked item request carries `LinkDepth - 1` and
the request's `ItemSubject`, `ResponseSubject`, `IgnoreCache`, `Timeout` and
`UUID`; when the request's `LinkDepth` is zero the linked item requests are
exactly those the underlying method produced, unmodified. -/
theorem executeRequest_link_propagation (now : Nat) (req : ItemRequest)
    (sources : List Source) (cache : Cache) (items : List Item)
    (h : (executeRequest now req sources cache).2 = .ok items) :
    (req.linkDepth > 0 → ∀ i ∈ items, ∀ lir ∈ i.linkedItemRequests,
      lir.linkDepth = req.linkDepth - 1 ∧ lir.itemSubject = req.itemSubject
      ∧ lir.responseSubject = req.responseSubject ∧ lir.ignoreCache = req.ignoreCache
      ∧ lir.timeout = req.timeout ∧ lir.uuid = req.uuid)
    ∧ (req.linkDepth = 0 → items.map (fun i => i.linkedItemRequests)
        = (executeRequestRaw now req sources cache).2.1.map
            (fun i => i.linkedItemRequests)) := by
  cases hr : (executeRequestRaw now req sources cache).2.2 with
  | some e => simp [executeRequest, hr] at h
  | none =>
    simp only [executeRequest, hr] at h
    injection h with h
    subst h
    constructor
    · intro hd i hi lir hlir
      rw [List.mem_map] at hi
      obtain ⟨i₀, _, rfl⟩ := hi
      unfold linkItem at hlir
      rw [if_pos hd] at hlir
      simp only at hlir
      rw [List.mem_map] at hlir
      obtain ⟨l₀, _, rfl⟩ := hlir
      exact ⟨rfl, rfl, rfl, rfl, rfl, rfl⟩
    · intro hd0
      rw [List.map_map]
      refine List.map_congr_left ?_
      intro i _
      simp [linkItem, hd0]

/-- Witness for C8: a GET with link depth 3 rewrites the linked item
request of the returned item. -/
theorem executeRequest_link_propagation_witness :
    (executeRequest 0 wGetRequest [wSource] []).2
        = .ok [linkItem wGetRequest (setMetadata 0 wSource wItem)]
    ∧ wGetRequest.linkDepth > 0
    ∧ ∀ i ∈ [linkItem wGetRequest (setMetadata 0 wSource wItem)],
        ∀ lir ∈ i.linkedItemRequests,
        lir.linkDepth = wGetRequest.linkDepth - 1
        ∧ lir.itemSubject = wGetRequest.itemSubject
        ∧ lir.responseSubject = wGetRequest.responseSubject
        ∧ lir.ignoreCache = wGetRequest.ignoreCache
        ∧ lir.timeout = wGetRequest.timeout
        ∧ lir.uuid = wGetRequest.uuid :=
  ⟨rfl, by decide,
   (executeRequest_link_propagation 0 wGetRequest [wSource] []
      [linkItem wGetRequest (setMetadata 0 wSource wItem)] rfl).1 (by decide)⟩

/-! ### Cache decision lemmas -/

lemma listCacheDecision_empty_cache (now : Nat) (tags : Tags) (ig : Bool) :
    listCacheDecision now tags [] ig = .callSource := by
  cases ig <;> simp [listCacheDecision, cacheSearch]

lemma listCacheDecision_single_stored_error (now : Nat) (tags : Tags) (e : SourceError)
    (exp : Nat) (hexp : now < exp) (hsub : tagsSubset tags tags = true) :
    listCacheDecision now tags [⟨tags, .storedError e, exp⟩] false
      = if isNotFoundError e then .skipSource else .callSource := by
  simp [listCacheDecision, cacheSearch, hexp, hsub]

lemma listCacheDecision_single_stored_error_call (now : Nat) (tags : Tags)
    (e : SourceError) (exp : Nat) (hne : isNotFoundError e = false) :
    listCacheDecision now tags [⟨tags, .storedError e, exp⟩] false = .callSource := by
  unfold listCacheDecision cacheSearch
  by_cases h : (decide (now < exp) && tagsSubset tags tags) = true
  · simp [h, hne]
  · simp [h]

/-! ### Find/Search loop evaluation lemmas -/

lemma engineFindLoop_single_skip (now : Nat) (r : ItemRequest) (src : Source)
    (cache : Cache)
    (hdec : listCacheDecision now (findTags r src) cache r.ignoreCache = .skipSource) :
    engineFindLoop now r [src] cache
      = { cache := cache, items := [], errors := [], calls := [] } := by
  simp [engineFindLoop, hdec]

lemma engineFindLoop_single_call (now : Nat) (r : ItemRequest) (src : Source)
    (cache : Cache)
    (hdec : listCacheDecision now (findTags r src) cache r.ignoreCache = .callSource) :
    engineFindLoop now r [src] cache
      = { cache :=
            (match (src.find r.context).2 with
             | none =>
               if (src.find r.context).1.isEmpty then
                 ((src.find r.context).1.map (setMetadata now src)).foldl
                   (fun c it => storeItem c it (now + getCacheDuration src) (findTags r src))
                   (storeError cache (SourceError.sdpErr { errorType := .NOTFOUND })
                     (now + getCacheDuration src) (findTags r src))
               else ((src.find r.context).1.map (setMetadata now src)).foldl
                 (fun c it => storeItem c it (now + getCacheDuration src) (findTags r src))
                 cache
             | some e =>
               ((src.find r.context).1.map (setMetadata now src)).foldl
                 (fun c it => storeItem c it (now + getCacheDuration src) (findTags r src))
                 (storeError cache e (now + getCacheDuration src) (findTags r src))),
          items := (src.find r.context).1.map (setMetadata now src),
          errors := [(src.find r.context).2],
          calls := [src.name] } := by
  cases hres : src.find r.context with
  | mk finds err =>
    cases err <;>
      simp [engineFindLoop, hdec, hres] <;>
      by_cases hemp : finds = [] <;>
      simp [hemp]

lemma engineSearchLoop_single_skip (now : Nat) (r : ItemRequest) (src : Source)
    (cache : Cache)
    (hdec : listCacheDecision now (searchTags r src) cache r.ignoreCache = .skipSource) :
    engineSearchLoop now r [src] cache
      = { cache := cache, items := [], errors := [], calls := [] } := by
  simp [engineSearchLoop, hdec]

lemma engineSearchLoop_single_call (now : Nat) (r : ItemRequest) (src : Source)
    (cache : Cache)
    (hdec : listCacheDecision now (searchTags r src) cache r.ignoreCache = .callSource) :
    engineSearchLoop now r [src] cache
      = { cache :=
            (match (searchFn src r.context r.query).2 with
             | none =>
               if (searchFn src r.context r.query).1.isEmpty then
                 ((searchFn src r.context r.query).1.map (setMetadata now src)).foldl
                   (fun c it => storeItem c it (now + getCacheDuration src) (searchTags r src))
                   (storeError cache (SourceError.sdpErr { errorType := .NOTFOUND })
                     (now + getCacheDuration src) (searchTags r src))
               else ((searchFn src r.context r.query).1.map (setMetadata now src)).foldl
                 (fun c it => storeItem c it (now + getCacheDuration src) (searchTags r src))
                 cache
             | some e =>
               ((searchFn src r.context r.query).1.map (setMetadata now src)).foldl
                 (fun c it => storeItem c it (now + getCacheDuration src) (searchTags r src))
                 (storeError cache e (now + getCacheDuration src) (searchTags r src))),
          items := (searchFn src r.context r.query).1.map (setMetadata now src),
          errors := [(searchFn src r.context r.query).2],
          calls := [src.name] } := by
  cases hres : searchFn src r.context r.query with
  | mk finds err =>
    cases err <;>
      simp [engineSearchLoop, hdec, hres] <;>
      by_cases hemp : finds = [] <;>
      simp [hemp]

/-! ### C7: negative caching of empty LIST/SEARCH results -/

/-- C7: an empty but successful `Find` (LIST) or `Search` stores a
`NOTFOUND` error under the same tags, and a second identical query within
the TTL (without `IgnoreCache`) finds the cached `NOTFOUND` and skips the
source: across the two queries the source is called exactly once. -/
theorem empty_result_negative_cache (now₁ now₂ : Nat) (r : ItemRequest) (src : Source)
    (f : String → String → List Item × Option SourceError)
    (hic : r.ignoreCache = false)
    (hfind : src.find r.context = ([], none))
    (hsearch : src.search = some f)
    (hfq : f r.context r.query = ([], none))
    (httl : now₂ < now₁ + getCacheDuration src) :
    ((engineFind now₁ r [src] []).calls = [src.name]
      ∧ (engineFind now₁ r [src] []).cache
          = [⟨findTags r src, .storedError (.sdpErr { errorType := .NOTFOUND }),
              now₁ + getCacheDuration src⟩]
      ∧ (engineFind now₂ r [src] (engineFind now₁ r [src] []).cache).calls = [])
    ∧ ((engineSearch now₁ r [src] []).calls = [src.name]
      ∧ (engineSearch now₁ r [src] []).cache
          = [⟨searchTags r src, .storedError (.sdpErr { errorType := .NOTFOUND }),
              now₁ + getCacheDuration src⟩]
      ∧ (engineSearch now₂ r [src] (engineSearch now₁ r [src] []).cache).calls = []) := by
  have hfn : searchFn src r.context r.query = ([], none) := by
    simp [searchFn, hsearch, hfq]
  have hl1 := engineFindLoop_single_call now₁ r src []
    (by rw [hic]; exact listCacheDecision_empty_cache now₁ (findTags r src) false)
  rw [hfind] at hl1
  simp only [List.isEmpty_nil, if_true, List.map_nil, List.foldl_nil] at hl1
  have hs1 := engineSearchLoop_single_call now₁ r src []
    (by rw [hic]; exact listCacheDecision_empty_cache now₁ (searchTags r src) false)
  rw [hfn] at hs1
  simp only [List.isEmpty_nil, if_true, List.map_nil, List.foldl_nil] at hs1
  have hfind1 : engineFind now₁ r [src] []
      = { cache := [⟨findTags r src, .storedError (.sdpErr { errorType := .NOTFOUND }),
            now₁ + getCacheDuration src⟩],
          items := [], error := none, calls := [src.name] } := by
    simp [engineFind, hl1, finalError, storeError]
  have hsearch1 : engineSearch now₁ r [src] []
      = { cache := [⟨searchTags r src, .storedError (.sdpErr { errorType := .NOTFOUND }),
            now₁ + getCacheDuration src⟩],
          items := [], error := none, calls := [src.name] } := by
    simp [engineSearch, List.filter, hsearch, hs1, finalError, storeError]
  have hdec2f : listCacheDecision now₂ (findTags r src)
      [⟨findTags r src, .storedError (.sdpErr { errorType := .NOTFOUND }),
        now₁ + getCacheDuration src⟩] false = .skipSource := by
    rw [listCacheDecision_single_stored_error now₂ (findTags r src) _ _ httl
      (tagsSubset_findTags_self r src)]
    simp [isNotFoundError]
  have hdec2s : listCacheDecision now₂ (searchTags r src)
      [⟨searchTags r src, .storedError (.sdpErr { errorType := .NOTFOUND }),
        now₁ + getCacheDuration src⟩] false = .skipSource := by
    rw [listCacheDecision_single_stored_error now₂ (searchTags r src) _ _ httl
      (tagsSubset_searchTags_self r src)]
    simp [isNotFoundError]
  refine ⟨⟨by rw [hfind1], by rw [hfind1], ?_⟩, ⟨by rw [hsearch1], by rw [hsearch1], ?_⟩⟩
  · rw [hfind1]
    have := engineFindLoop_single_skip now₂ r src _ (by rw [hic]; exact hdec2f)
    simp [engineFind, this]
  · rw [hsearch1]
    have := engineSearchLoop_single_skip now₂ r src _ (by rw [hic]; exact hdec2s)
    simp [engineSearch, List.filter, hsearch, this]

/-- A LIST request in the `empty` scope. -/
def emptyListRequest : ItemRequest :=
  { type := "person", context := "empty", method := .FIND }

/-- Witness for C7 at `emptySource`: one call in the first run, none in the
second. -/
theorem empty_result_negative_cache_witness :
    emptyListRequest.ignoreCache = false
    ∧ emptySource.find "empty" = ([], none)
    ∧ (1 : Nat) < 0 + getCacheDuration emptySource
    ∧ (engineFind 0 emptyListRequest [emptySource] []).calls = ["empty-source"]
    ∧ (engineFind 1 emptyListRequest [emptySource]
        (engineFind 0 emptyListRequest [emptySource] []).cache).calls = [] := by
  have h := empty_result_negative_cache 0 1 emptyListRequest emptySource
    (fun _ _ => ([], none)) rfl rfl rfl rfl (by decide)
  exact ⟨rfl, rfl, by decide, h.1.1, h.1.2.2⟩

/-! ### C2: a SEARCH-cached item satisfies a later GET -/

/-- C2: after a SEARCH against a source returns and caches an item with
unique attribute value `v` in a scope, a GET for that item's type in the
same scope with query `v`, issued within the cache TTL and without
`IgnoreCache`, is served from the cache: it returns the cached item, no
error, and performs no source `Get` call. -/
theorem search_then_get_served_from_cache (now₁ now₂ : Nat) (rs rg : ItemRequest)
    (src : Source) (f : String → String → List Item × Option SourceError) (i : Item)
    (hs : src.search = some f)
    (hf : f rs.context rs.query = ([i], none))
    (huav : i.uniqueAttributeValue = rg.query)
    (htype : rg.type = i.type)
    (hctx : rg.context = rs.context)
    (hicg : rg.ignoreCache = false)
    (httl : now₂ < now₁ + getCacheDuration src) :
    (engineSearch now₁ rs [src] []).items = [setMetadata now₁ src i]
    ∧ (engineSearch now₁ rs [src] []).error = none
    ∧ engineGet now₂ rg [src] (engineSearch now₁ rs [src] []).cache
        = { cache := (engineSearch now₁ rs [src] []).cache,
            item := setMetadata now₁ src i, error := none, calls := [] } := by
  have hfn : searchFn src rs.context rs.query = ([i], none) := by
    simp [searchFn, hs, hf]
  have hl1 := engineSearchLoop_single_call now₁ rs src []
    (listCacheDecision_empty_cache now₁ (searchTags rs src) rs.ignoreCache)
  rw [hfn] at hl1
  simp only [List.isEmpty_cons, List.map_cons, List.map_nil, List.foldl_cons,
    List.foldl_nil, Bool.false_eq_true, if_false] at hl1
  have hsearch1 : engineSearch now₁ rs [src] []
      = { cache := storeItem [] (setMetadata now₁ src i) (now₁ + getCacheDuration src)
            (searchTags rs src),
          items := [setMetadata now₁ src i], error := none, calls := [src.name] } := by
    simp [engineSearch, List.filter, hs, hl1, finalError]
  rw [hsearch1]
  refine ⟨rfl, rfl, ?_⟩
  have hsub : tagsSubset (getTags rg src)
      (itemTags (setMetadata now₁ src i) ++ searchTags rs src) = true := by
    have h1 : (setMetadata now₁ src i).uniqueAttributeValue = rg.query := huav
    have h2 : rg.type = (setMetadata now₁ src i).type := htype
    exact tagsSubset_get_search rs rg src (setMetadata now₁ src i) h1 h2 hctx
  have hcs : cacheSearch now₂
      (storeItem [] (setMetadata now₁ src i) (now₁ + getCacheDuration src)
        (searchTags rs src)) (getTags rg src)
      = .hit [setMetadata now₁ src i] := by
    simp [cacheSearch, storeItem, httl, hsub]
  have hdec : getCacheDecision now₂ rg src
      (storeItem [] (setMetadata now₁ src i) (now₁ + getCacheDuration src)
        (searchTags rs src)) = .returnItem (setMetadata now₁ src i) := by
    simp [getCacheDecision, hicg, hcs]
  simp [engineGet, engineGetLoop, hdec]

/-- A SEARCH request in scope `test`. -/
def wSearchRequest : ItemRequest :=
  { type := "person", context := "test", query := "findme", method := .SEARCH }

/-- Witness for C2: searching with `wSource` then getting `Dylan` hits the
cache with no source call. -/
theorem search_then_get_served_from_cache_witness :
    wSource.search.isSome = true
    ∧ wItem.uniqueAttributeValue = wGetRequest.query
    ∧ wGetRequest.type = wItem.type
    ∧ wGetRequest.context = wSearchRequest.context
    ∧ wGetRequest.ignoreCache = false
    ∧ (1 : Nat) < 0 + getCacheDuration wSource
    ∧ engineGet 1 wGetRequest [wSource] (engineSearch 0 wSearchRequest [wSource] []).cache
        = { cache := (engineSearch 0 wSearchRequest [wSource] []).cache,
            item := setMetadata 0 wSource wItem, error := none, calls := [] } := by
  have h := search_then_get_served_from_cache 0 1 wSearchRequest wGetRequest wSource
    (fun _ _ => ([wItem], none)) wItem rfl rfl rfl rfl rfl rfl (by decide)
  exact ⟨rfl, rfl, rfl, rfl, rfl, by decide, h.2.2⟩

/-! ### C1: caching of non-NOTFOUND errors -/

lemma getCacheDecision_callSource_subset (now : Nat) (r : ItemRequest) (src : Source)
    (cache c' : Cache) (h : getCacheDecision now r src cache = .callSource c') :
    ∀ en ∈ c', en ∈ cache := by
  unfold getCacheDecision at h
  by_cases hic : r.ignoreCache = true
  · rw [if_pos hic] at h
    injection h with h
    subst h
    exact fun en he => he
  · rw [if_neg hic] at h
    cases hcs : cacheSearch now cache (getTags r src) with
    | miss =>
      simp only [hcs] at h
      injection h with h
      subst h
      exact fun en he => he
    | err e =>
      simp only [hcs] at h
      by_cases hnf : isNotFoundError e = true
      · rw [if_pos hnf] at h
        cases h
      · rw [if_neg hnf] at h
        injection h with h
        subst h
        exact fun en he => he
    | hit items =>
      simp only [hcs] at h
      by_cases hlen : (items.length == 1) = true
      · rw [if_pos hlen] at h
        cases h
      · rw [if_neg hlen] at h
        injection h with h
        subst h
        intro en he
        exact (List.mem_filter.mp he).1

lemma engineGetLoop_cache_entries (now : Nat) (r : ItemRequest) (sources : List Source) :
    ∀ (cache : Cache) (errAcc : Option SourceError),
      ∀ en ∈ (engineGetLoop now r sources cache errAcc).cache,
        en ∈ cache ∨ (∃ i, en.value = CacheValue.item i)
        ∨ (∃ ire, en.value = CacheValue.storedError (.sdpErr ire)
            ∧ ire.errorType = .NOTFOUND) := by
  induction sources with
  | nil =>
    intro cache errAcc en hen
    exact Or.inl hen
  | cons src rest ih =>
    intro cache errAcc en hen
    cases hdec : getCacheDecision now r src cache with
    | skipSource =>
      simp only [engineGetLoop, hdec] at hen
      exact ih cache errAcc en hen
    | returnItem i =>
      simp only [engineGetLoop, hdec] at hen
      exact Or.inl hen
    | callSource c' =>
      simp only [engineGetLoop, hdec] at hen
      have hsub := getCacheDecision_callSource_subset now r src cache c' hdec
      cases hget : src.get r.context r.query with
      | mk oi oe =>
        simp only [hget] at hen
        cases oe with
        | none =>
          dsimp only at hen
          cases oi with
          | none =>
            exact Or.inl (hsub en hen)
          | some it =>
            simp only [storeItem, List.mem_append, List.mem_singleton] at hen
            rcases hen with hen | rfl
            · exact Or.inl (hsub en hen)
            · exact Or.inr (Or.inl ⟨setMetadata now src it, rfl⟩)
        | some e =>
          dsimp only at hen
          by_cases hnf : isNotFoundError e = true
          · rw [if_pos hnf] at hen
            rcases ih _ _ en hen with h | h | h
            · simp only [storeError, List.mem_append, List.mem_singleton] at h
              rcases h with h | rfl
              · exact Or.inl (hsub en h)
              · cases e with
                | sdpErr ire =>
                  refine Or.inr (Or.inr ⟨ire, rfl, ?_⟩)
                  exact beq_iff_eq.mp hnf
                | genericErr m => simp [isNotFoundError] at hnf
            · exact Or.inr (Or.inl h)
            · exact Or.inr (Or.inr h)
          · rw [if_neg hnf] at hen
            rcases ih _ _ en hen with h | h | h
            · exact Or.inl (hsub en h)
            · exact Or.inr (Or.inl h)
            · exact Or.inr (Or.inr h)

lemma getCacheDecision_empty_cache (now : Nat) (r : ItemRequest) (src : Source) :
    getCacheDecision now r src [] = .callSource [] := by
  by_cases h : r.ignoreCache = true <;> simp [getCacheDecision, h, cacheSearch]

lemma engineGet_single_get_error (now : Nat) (rq : ItemRequest) (src : Source)
    (e : SourceError)
    (hget : src.get rq.context rq.query = (none, some e))
    (hne : isNotFoundError e = false) :
    engineGet now rq [src] []
      = { cache := [], item := {}, error := some e, calls := [src.name] } := by
  simp [engineGet, engineGetLoop, getCacheDecision_empty_cache, hget, hne]

lemma engineFind_single_error (now : Nat) (rq : ItemRequest) (src : Source)
    (cache : Cache) (e : SourceError)
    (hfind : src.find rq.context = ([], some e))
    (hdec : listCacheDecision now (findTags rq src) cache rq.ignoreCache = .callSource) :
    engineFind now rq [src] cache
      = { cache := storeError cache e (now + getCacheDuration src) (findTags rq src),
          items := [], error := some e, calls := [src.name] } := by
  have hl := engineFindLoop_single_call now rq src cache hdec
  rw [hfind] at hl
  simp only [List.map_nil, List.foldl_nil] at hl
  simp [engineFind, hl, finalError]

lemma engineSearch_single_error (now : Nat) (rq : ItemRequest) (src : Source)
    (cache : Cache) (e : SourceError)
    (f : String → String → List Item × Option SourceError)
    (hs : src.search = some f)
    (hfq : f rq.context rq.query = ([], some e))
    (hdec : listCacheDecision now (searchTags rq src) cache rq.ignoreCache = .callSource) :
    engineSearch now rq [src] cache
      = { cache := storeError cache e (now + getCacheDuration src) (searchTags rq src),
          items := [], error := some e, calls := [src.name] } := by
  have hfn : searchFn src rq.context rq.query = ([], some e) := by
    simp [searchFn, hs, hfq]
  have hl := engineSearchLoop_single_call now rq src cache hdec
  rw [hfn] at hl
  simp only [List.map_nil, List.foldl_nil] at hl
  simp [engineSearch, List.filter, hs, hl, finalError]

/-- A FIND request in the failing scope. -/
def otherErrorRequest : ItemRequest :=
  { type := "person", context := "error", query := "q", method := .FIND }

/-- C1 counterexample: a `Find` whose source fails with an `OTHER` error
DOES create a cache entry — `Engine.Find` stores every source error,
`NOTFOUND` or not, under the query tags (`source.go` lines 311-315),
contradicting the claim that no cache entry is created for a non-`NOTFOUND`
error. -/
theorem find_other_error_creates_cache_entry :
    isNotFoundError otherError = false
    ∧ (engineFind 0 otherErrorRequest [failingSource] []).cache
        = [{ tags := findTags otherErrorRequest failingSource,
             value := .storedError otherError, expiry := 600 }] := by
  constructor
  · rfl
  · rfl

/-- C1 (amended): `Engine.Get` never caches a non-`NOTFOUND` error — every
cache entry it adds is an item or a typed `NOTFOUND` — and two consecutive
identical GETs producing a non-`NOTFOUND` error both invoke the source with
nothing cached in between.  `Engine.Find` and `Engine.Search`, by contrast,
DO store a non-`NOTFOUND` source error in the cache, but such a stored error
never short-circuits: two consecutive identical FIND (or SEARCH) queries
producing the error each invoke the source. -/
theorem other_error_caching_amended
    (now : Nat) (r : ItemRequest) (sources : List Source) (cache : Cache)
    (now₁ now₂ : Nat) (rq : ItemRequest) (src : Source)
    (f : String → String → List Item × Option SourceError) (e : SourceError)
    (hic : rq.ignoreCache = false)
    (hne : isNotFoundError e = false)
    (hget : src.get rq.context rq.query = (none, some e))
    (hfind : src.find rq.context = ([], some e))
    (hsearch : src.search = some f)
    (hfq : f rq.context rq.query = ([], some e)) :
    (∀ en ∈ (engineGet now r sources cache).cache,
        en ∈ cache ∨ (∃ i, en.value = CacheValue.item i)
        ∨ (∃ ire, en.value = CacheValue.storedError (.sdpErr ire)
            ∧ ire.errorType = .NOTFOUND))
    ∧ ((engineGet now₁ rq [src] []).cache = []
        ∧ (engineGet now₁ rq [src] []).calls = [src.name]
        ∧ (engineGet now₂ rq [src] (engineGet now₁ rq [src] []).cache).calls
            = [src.name])
    ∧ ((engineFind now₁ rq [src] []).cache
          = [⟨findTags rq src, .storedError e, now₁ + getCacheDuration src⟩]
        ∧ (engineFind now₁ rq [src] []).calls = [src.name]
        ∧ (engineFind now₂ rq [src] (engineFind now₁ rq [src] []).cache).calls
            = [src.name])
    ∧ ((engineSearch now₁ rq [src] []).cache
          = [⟨searchTags rq src, .storedError e, now₁ + getCacheDuration src⟩]
        ∧ (engineSearch now₁ rq [src] []).calls = [src.name]
        ∧ (engineSearch now₂ rq [src] (engineSearch now₁ rq [src] []).cache).calls
            = [src.name]) := by
  refine ⟨?_, ?_, ?_, ?_⟩
  · unfold engineGet
    by_cases h : sources.isEmpty = true
    · rw [if_pos h]
      intro en hen
      exact Or.inl hen
    · rw [if_neg h]
      exact engineGetLoop_cache_entries now r sources cache none
  · have h1 := engineGet_single_get_error now₁ rq src e hget hne
    have h2 := engineGet_single_get_error now₂ rq src e hget hne
    rw [h1]
    exact ⟨rfl, rfl, by rw [h2]⟩
  · have h1 := engineFind_single_error now₁ rq src [] e hfind
      (by rw [hic]; exact listCacheDecision_empty_cache now₁ (findTags rq src) false)
    have hc1 : (engineFind now₁ rq [src] []).cache
        = [⟨findTags rq src, .storedError e, now₁ + getCacheDuration src⟩] := by
      rw [h1]; rfl
    have hdec2 : listCacheDecision now₂ (findTags rq src)
        [⟨findTags rq src, .storedError e, now₁ + getCacheDuration src⟩]
          rq.ignoreCache = .callSource := by
      rw [hic]
      exact listCacheDecision_single_stored_error_call now₂ (findTags rq src) e _ hne
    have h2 := engineFind_single_error now₂ rq src
      [⟨findTags rq src, .storedError e, now₁ + getCacheDuration src⟩] e hfind hdec2
    refine ⟨hc1, by rw [h1], ?_⟩
    rw [hc1, h2]
  · have h1 := engineSearch_single_error now₁ rq src [] e f hsearch hfq
      (by rw [hic]; exact listCacheDecision_empty_cache now₁ (searchTags rq src) false)
    have hc1 : (engineSearch now₁ rq [src] []).cache
        = [⟨searchTags rq src, .storedError e, now₁ + getCacheDuration src⟩] := by
      rw [h1]; rfl
    have hdec2 : listCacheDecision now₂ (searchTags rq src)
        [⟨searchTags rq src, .storedError e, now₁ + getCacheDuration src⟩]
          rq.ignoreCache = .callSource := by
      rw [hic]
      exact listCacheDecision_single_stored_error_call now₂ (searchTags rq src) e _ hne
    have h2 := engineSearch_single_error now₂ rq src
      [⟨searchTags rq src, .storedError e, now₁ + getCacheDuration src⟩] e f hsearch
      hfq hdec2
    refine ⟨hc1, by rw [h1], ?_⟩
    rw [hc1, h2]

/-- Witness for the amended C1 at `failingSource`. -/
theorem other_error_caching_amended_witness :
    otherErrorRequest.ignoreCache = false
    ∧ isNotFoundError otherError = false
    ∧ (engineFind 0 otherErrorRequest [failingSource] []).calls = ["fail-source"]
    ∧ (engineFind 1 otherErrorRequest [failingSource]
        (engineFind 0 otherErrorRequest [failingSource] []).cache).calls
          = ["fail-source"]
    ∧ (engineGet 0 otherErrorRequest [failingSource] []).cache = [] := by
  have h := other_error_caching_amended 0 otherErrorRequest [failingSource] [] 0 1
    otherErrorRequest failingSource (fun _ _ => ([], some otherError)) otherError
    rfl rfl rfl rfl rfl rfl
  exact ⟨rfl, rfl, h.2.2.1.2.1, h.2.2.1.2.2, h.2.1.1⟩

/-! ### C6: per-source errors never fail the whole query -/

lemma finalError_cons_of_not_mem (e : Option SourceError) (l : List (Option SourceError))
    (h : ¬ none ∈ e :: l) : finalError (e :: l) = e := by
  have h' : ¬ ((e :: l).contains none = true) := by simpa using h
  unfold finalError
  rw [if_neg h']

lemma finalError_eq_none_iff (l : List (Option SourceError)) (hne : l ≠ []) :
    finalError l = none ↔ none ∈ l := by
  unfold finalError
  by_cases h : l.contains none = true
  · simp only [h, if_true, true_iff]
    simpa using h
  · rw [if_neg h]
    cases l with
    | nil => cases hne rfl
    | cons e rest =>
      simp only [List.mem_cons]
      constructor
      · intro he
        exact Or.inl he.symm
      · intro hm
        exfalso
        exact h (by simpa using hm)

lemma engineFindLoop_cons_call (now : Nat) (r : ItemRequest) (src : Source)
    (rest : List Source) (cache : Cache)
    (hdec : listCacheDecision now (findTags r src) cache r.ignoreCache = .callSource) :
    engineFindLoop now r (src :: rest) cache
      = (let res := src.find r.context
         let cache1 :=
           match res.2 with
           | none =>
             if res.1.isEmpty then
               storeError cache (SourceError.sdpErr { errorType := .NOTFOUND })
                 (now + getCacheDuration src) (findTags r src)
             else cache
           | some e => storeError cache e (now + getCacheDuration src) (findTags r src)
         let finds := res.1.map (setMetadata now src)
         let cache2 := finds.foldl
           (fun c it => storeItem c it (now + getCacheDuration src) (findTags r src)) cache1
         let o := engineFindLoop now r rest cache2
         { o with items := finds ++ o.items, errors := res.2 :: o.errors,
                  calls := src.name :: o.calls }) := by
  simp only [engineFindLoop, hdec]

lemma engineSearchLoop_cons_call (now : Nat) (r : ItemRequest) (src : Source)
    (rest : List Source) (cache : Cache)
    (hdec : listCacheDecision now (searchTags r src) cache r.ignoreCache = .callSource) :
    engineSearchLoop now r (src :: rest) cache
      = (let res := searchFn src r.context r.query
         let cache1 :=
           match res.2 with
           | none =>
             if res.1.isEmpty then
               storeError cache (SourceError.sdpErr { errorType := .NOTFOUND })
                 (now + getCacheDuration src) (searchTags r src)
             else cache
           | some e => storeError cache e (now + getCacheDuration src) (searchTags r src)
         let finds := res.1.map (setMetadata now src)
         let cache2 := finds.foldl
           (fun c it => storeItem c it (now + getCacheDuration src) (searchTags r src)) cache1
         let o := engineSearchLoop now r rest cache2
         { o with items := finds ++ o.items, errors := res.2 :: o.errors,
                  calls := src.name :: o.calls }) := by
  simp only [engineSearchLoop, hdec]

lemma engineFindLoop_projections_ic (now : Nat) (r : ItemRequest)
    (hic : r.ignoreCache = true) (sources : List Source) :
    ∀ cache : Cache,
      (engineFindLoop now r sources cache).errors
          = sources.map (fun s => (s.find r.context).2)
      ∧ (engineFindLoop now r sources cache).items
          = sources.flatMap (fun s => (s.find r.context).1.map (setMetadata now s))
      ∧ (engineFindLoop now r sources cache).calls
          = sources.map (fun s => s.name) := by
  induction sources with
  | nil => intro cache; exact ⟨rfl, rfl, rfl⟩
  | cons src rest ih =>
    intro cache
    have hdec : listCacheDecision now (findTags r src) cache r.ignoreCache
        = .callSource := by
      rw [hic]
      rfl
    rw [engineFindLoop_cons_call now r src rest cache hdec]
    dsimp only
    refine ⟨?_, ?_, ?_⟩
    · rw [(ih _).1, List.map_cons]
    · rw [(ih _).2.1, List.flatMap_cons]
    · rw [(ih _).2.2, List.map_cons]

lemma engineSearchLoop_projections_ic (now : Nat) (r : ItemRequest)
    (hic : r.ignoreCache = true) (sources : List Source) :
    ∀ cache : Cache,
      (engineSearchLoop now r sources cache).errors
          = sources.map (fun s => (searchFn s r.context r.query).2)
      ∧ (engineSearchLoop now r sources cache).items
          = sources.flatMap (fun s => (searchFn s r.context r.query).1.map (setMetadata now s))
      ∧ (engineSearchLoop now r sources cache).calls
          = sources.map (fun s => s.name) := by
  induction sources with
  | nil => intro cache; exact ⟨rfl, rfl, rfl⟩
  | cons src rest ih =>
    intro cache
    have hdec : listCacheDecision now (searchTags r src) cache r.ignoreCache
        = .callSource := by
      rw [hic]
      rfl
    rw [engineSearchLoop_cons_call now r src rest cache hdec]
    dsimp only
    refine ⟨?_, ?_, ?_⟩
    · rw [(ih _).1, List.map_cons]
    · rw [(ih _).2.1, List.flatMap_cons]
    · rw [(ih _).2.2, List.map_cons]

/-- C6: for a `Find` or `Search` execution over a non-empty list of
relevant sources (all searchable in the `Search` case; the cache bypassed so
that every source is actually called), the returned error is nil iff some
source's call succeeded; when every call fails the first source's error is
returned; and the returned items are exactly those gathered from the
sources, so per-source errors never fail the whole query. -/
theorem find_search_error_aggregation (now : Nat) (r : ItemRequest)
    (sources : List Source) (cache : Cache)
    (hne : sources ≠ [])
    (hic : r.ignoreCache = true)
    (hsearchable : ∀ s ∈ sources, s.search.isSome = true) :
    ((engineFind now r sources cache).error = none ↔
        ∃ s ∈ sources, (s.find r.context).2 = none)
    ∧ ((∀ s ∈ sources, (s.find r.context).2 ≠ none) →
        (engineFind now r sources cache).error
          = ((sources.head hne).find r.context).2)
    ∧ (engineFind now r sources cache).items
        = sources.flatMap (fun s => (s.find r.context).1.map (setMetadata now s))
    ∧ ((engineSearch now r sources cache).error = none ↔
        ∃ s ∈ sources, (searchFn s r.context r.query).2 = none)
    ∧ ((∀ s ∈ sources, (searchFn s r.context r.query).2 ≠ none) →
        (engineSearch now r sources cache).error
          = (searchFn (sources.head hne) r.context r.query).2)
    ∧ (engineSearch now r sources cache).items
        = sources.flatMap (fun s => (searchFn s r.context r.query).1.map (setMetadata now s)) := by
  have hsf : sources.filter (fun s => s.search.isSome) = sources :=
    List.filter_eq_self.mpr hsearchable
  have hse : sources.isEmpty = false := by
    cases sources with
    | nil => cases hne rfl
    | cons a l => rfl
  have hfind : engineFind now r sources cache
      = { cache := (engineFindLoop now r sources cache).cache,
          items := (engineFindLoop now r sources cache).items,
          error := finalError (engineFindLoop now r sources cache).errors,
          calls := (engineFindLoop now r sources cache).calls } := by
    simp [engineFind, hse]
  have hsearch : engineSearch now r sources cache
      = { cache := (engineSearchLoop now r sources cache).cache,
          items := (engineSearchLoop now r sources cache).items,
          error := finalError (engineSearchLoop now r sources cache).errors,
          calls := (engineSearchLoop now r sources cache).calls } := by
    simp [engineSearch, hsf, hse]
  have hfp := engineFindLoop_projections_ic now r hic sources cache
  have hsp := engineSearchLoop_projections_ic now r hic sources cache
  have hmapne : sources.map (fun s => (s.find r.context).2) ≠ [] := by
    simpa using hne
  have hmapne2 : sources.map (fun s => (searchFn s r.context r.query).2) ≠ [] := by
    simpa using hne
  refine ⟨?_, ?_, ?_, ?_, ?_, ?_⟩
  · rw [hfind]
    dsimp only
    rw [hfp.1, finalError_eq_none_iff _ hmapne]
    simp only [List.mem_map]
  · intro hall
    rw [hfind]
    dsimp only
    rw [hfp.1]
    cases sources with
    | nil => cases hne rfl
    | cons s₀ rest =>
      rw [List.map_cons]
      have hnm : ¬ none ∈ (s₀.find r.context).2
          :: List.map (fun s => (s.find r.context).2) rest := by
        intro hm
        simp only [List.mem_cons, List.mem_map] at hm
        rcases hm with hm | ⟨s, hs, he⟩
        · exact hall s₀ (List.mem_cons_self s₀ rest) hm.symm
        · exact hall s (List.mem_cons_of_mem s₀ hs) he
      rw [finalError_cons_of_not_mem _ _ hnm]
      rfl
  · rw [hfind]
    dsimp only
    exact hfp.2.1
  · rw [hsearch]
    dsimp only
    rw [hsp.1, finalError_eq_none_iff _ hmapne2]
    simp only [List.mem_map]
  · intro hall
    rw [hsearch]
    dsimp only
    rw [hsp.1]
    cases sources with
    | nil => cases hne rfl
    | cons s₀ rest =>
      rw [List.map_cons]
      have hnm : ¬ none ∈ (searchFn s₀ r.context r.query).2
          :: List.map (fun s => (searchFn s r.context r.query).2) rest := by
        intro hm
        simp only [List.mem_cons, List.mem_map] at hm
        rcases hm with hm | ⟨s, hs, he⟩
        · exact hall s₀ (List.mem_cons_self s₀ rest) hm.symm
        · exact hall s (List.mem_cons_of_mem s₀ hs) he
      rw [finalError_cons_of_not_mem _ _ hnm]
      rfl
  · rw [hsearch]
    dsimp only
    exact hsp.2.1

/-- A cache-bypassing FIND request in the failing scope. -/
def bypassErrorRequest : ItemRequest :=
  { type := "person", context := "error", query := "q", method := .FIND,
    ignoreCache := true }

/-- Witness for C6: with sources `[failingSource, wSource]` the second
source succeeds, so the query returns the items with a nil error. -/
theorem find_search_error_aggregation_witness :
    ([failingSource, wSource] : List Source) ≠ []
    ∧ bypassErrorRequest.ignoreCache = true
    ∧ (∀ s ∈ ([failingSource, wSource] : List Source), s.search.isSome = true)
    ∧ ((engineFind 0 bypassErrorRequest [failingSource, wSource] []).error = none ↔
        ∃ s ∈ ([failingSource, wSource] : List Source),
          (s.find bypassErrorRequest.context).2 = none) := by
  have hne : ([failingSource, wSource] : List Source) ≠ [] := by
    intro h
    cases h
  have hsa : ∀ s ∈ ([failingSource, wSource] : List Source), s.search.isSome = true := by
    intro s hs
    rcases List.mem_cons.mp hs with rfl | hs
    · rfl
    · rcases List.mem_cons.mp hs with rfl | hs
      · rfl
      · cases hs
  have h := find_search_error_aggregation 0 bypassErrorRequest [failingSource, wSource]
    [] hne rfl hsa
  exact ⟨hne, rfl, hsa, h.1⟩

end Discovery
